import Mathlib

/-!
Verification of the perf-cpp wrapper event engine
(counter/group scheduling, multiplexing correction, ring-buffer
consumption, sampler lifecycle and result ordering).

The repository ships the library headers under
`src/wrapper/include/perfcpp/`.  Inline member functions found in the
headers (for example `Group::calculate_multiplexing_factor` and
`CounterConfig::operator==`) are embedded directly from that source.
Member functions whose out-of-line implementation is not part of the
repository are modelled from the specification; each such definition
carries a doc comment starting with `Modelled from the spec:`.

Machine integers are embedded as `Nat` with explicit `% 2^64` where
unsigned-overflow behaviour matters; `double` arithmetic on exactly
representable 64-bit inputs is embedded over `ℚ`; fallible operations
return `Except`.
-/

namespace perf

/-- 2^64, the modulus of the `std::uint64_t` arithmetic used by the wrapper. -/
def U64 : ℕ := 2 ^ 64

/-- Unsigned 64-bit subtraction: for `a, b < U64` this is exactly the value of
`a - b` computed on `std::uint64_t` operands (wrapping around on `a < b`). -/
def u64sub (a b : ℕ) : ℕ :=
  (a + U64 - b) % U64

/-- Snapshot of the kernel read format for one group, embedded from
`CounterValues` in `group.h`: the enabled time and the running time
(member values are irrelevant to the multiplexing factor). -/
structure CounterValues where
  time_enabled : ℕ
  time_running : ℕ
deriving DecidableEq, Repr

/-- Embedded from `Group::calculate_multiplexing_factor(time_enabled, time_running)`
in `group.h`:
`return time_running > 0 ? double(time_enabled) / double(time_running) : 1.;`.
The `double` quotient of 64-bit integers is embedded as the rational quotient. -/
def calculate_multiplexing_factor (time_enabled time_running : ℕ) : ℚ :=
  if time_running > 0 then (time_enabled : ℚ) / (time_running : ℚ) else 1

/-- Embedded from the snapshot overload
`Group::calculate_multiplexing_factor(start, end)` in `group.h`: both time
deltas are computed by unsigned 64-bit subtraction and handed to the
delta form. -/
def calculate_multiplexing_factor_snapshot (startValue endValue : CounterValues) : ℚ :=
  calculate_multiplexing_factor
    (u64sub endValue.time_enabled startValue.time_enabled)
    (u64sub endValue.time_running startValue.time_running)

/-- Embedded from `PeriodOrFrequency` (referenced by `counter.h`): a sampling
period or a sampling frequency. -/
inductive PeriodOrFrequency where
  | period (value : ℕ)
  | frequency (value : ℕ)
deriving DecidableEq, Repr

/-- Embedded from `CounterConfig` in `counter.h`: a PMU type code, the three
configuration words `_configs[0..2]`, the scale, and the optional sampling
precision and period-or-frequency. -/
structure CounterConfig where
  type : ℕ
  config : ℕ
  config_extension_1 : ℕ := 0
  config_extension_2 : ℕ := 0
  scale : ℚ := 1
  precision : Option ℕ := none
  period_or_frequency : Option PeriodOrFrequency := none
deriving DecidableEq, Repr

/-- Embedded from `CounterConfig::operator==` in `counter.h`:
`return _type == other._type && _configs[0U] == other._configs[0U];`. -/
def counter_config_eq (a b : CounterConfig) : Bool :=
  a.type == b.type && a.config == b.config

/-- Embedded from `Group::MAX_MEMBERS` in `group.h`: the hardware limit on
the number of counters per group. -/
def MAX_MEMBERS : ℕ := 12

/-- Capacity failure of `Group::add`, mirroring `MaxCountersReachedError`
in `exception.h`. -/
inductive GroupError where
  | maxMembersReached
deriving DecidableEq, Repr

/-- A `Group` from `group.h`, reduced to the data the capacity claims need:
the ordered list of member counter configurations. -/
structure Group where
  members : List CounterConfig
deriving DecidableEq, Repr

/-- Modelled from the spec: the out-of-line body of `Group::add` is not part
of the repository. Per the spec, `add(config)` appends a counter and fails
with a capacity error once `MAX_MEMBERS = 12` members are reached. -/
def Group.add (g : Group) (event_config : CounterConfig) : Except GroupError Group :=
  if g.members.length ≥ MAX_MEMBERS then
    .error .maxMembersReached
  else
    .ok ⟨g.members ++ [event_config]⟩

/-- The state retained by a caller of `Group::add`: the updated group on
success and the untouched group on failure. -/
def Group.addRun (g : Group) (event_config : CounterConfig) : Group :=
  match g.add event_config with
  | .ok g2 => g2
  | .error _ => g

/-- A ring buffer from `mmap_buffer.h`, reduced to its queue of copied-out
overflow chunks (`_overflow_data`); bytes are embedded as naturals. -/
structure MmapBuffer where
  overflow_data : List (List ℕ)
deriving DecidableEq, Repr

/-- Modelled from the spec: the out-of-line body of
`MmapBuffer::consume_data` is not part of the repository. Per the spec it
atomically takes ownership of all accumulated chunks, leaving the buffer
queue empty. -/
def MmapBuffer.consume_data (b : MmapBuffer) : List (List ℕ) × MmapBuffer :=
  (b.overflow_data, ⟨[]⟩)

/-- The per-trigger-group buffer state of a `Sampler` from `sampler.h`: one
ring buffer per sample counter, the `_sample_data` cache, and a flag
recording whether the cache has been filled. -/
structure SamplerBuffers where
  counters : List MmapBuffer
  sample_data : List (List (List ℕ))
  is_consumed : Bool
deriving DecidableEq, Repr

/-- Modelled from the spec and from the contract stated on
`Sampler::consume_sample_data` in `sampler.h` (its out-of-line body is not
part of the repository): consuming from the sample counters happens only
once, and the function returns the consumed sample data, whether it was
consumed now or by an earlier call. -/
def SamplerBuffers.consume_sample_data (s : SamplerBuffers) :
    List (List (List ℕ)) × SamplerBuffers :=
  if s.is_consumed then
    (s.sample_data, s)
  else
    let data := s.counters.map (fun b => b.overflow_data)
    (data, ⟨s.counters.map (fun _ => ⟨[]⟩), data, true⟩)

/-- Embedded from `EventCounter::Schedule` in `event_counter.h`: how events
are placed onto physical hardware counters. -/
inductive Schedule where
  | Append
  | Separate
  | Group
deriving DecidableEq, Repr

/-- Capacity failures of scheduling, mirroring `MaxGroupsReachedError` and
`CannotAddEventToSingleGroupError` in `exception.h`; each carries the
configured ceiling its message names. -/
inductive CapacityError where
  | maxGroupsReached (num_physical_counters : ℕ)
  | cannotAddEventToSingleGroup (num_events_per_physical_counter : ℕ)
deriving DecidableEq, Repr

/-- The two scheduling ceilings of `Config` in `config.h`:
`_num_physical_counters` and `_num_events_per_physical_counter`. -/
structure SchedulingConfig where
  num_physical_counters : ℕ
  num_events_per_physical_counter : ℕ
deriving DecidableEq, Repr

/-- One entry of `_hardware_event_groups` in `event_counter.h`: a hardware
event group (reduced to its event list) together with the flag telling
whether the group is still open for further events. -/
structure HardwareEventGroup where
  events : List CounterConfig
  is_open : Bool
deriving DecidableEq, Repr

/-- Modelled from the spec: the out-of-line body of
`EventCounter::append_to_any_hardware_counter` is not part of the
repository. Per the Append rule, the event is placed on the first open
group with free capacity, and a group is sealed once it becomes full;
returns `none` when no open group has room. -/
def place_in_open_group (cap : ℕ) (event_config : CounterConfig) :
    List HardwareEventGroup → Option (List HardwareEventGroup)
  | [] => none
  | g :: gs =>
    if g.is_open && decide (g.events.length < cap) then
      some ({ events := g.events ++ [event_config],
              is_open := decide (g.events.length + 1 < cap) } :: gs)
    else
      match place_in_open_group cap event_config gs with
      | some gs2 => some (g :: gs2)
      | none => none

/-- Modelled from the spec: placing one Append-scheduled event. If no open
group has room, a new group is created (`EventCounter::create_new_group`)
when the group count is below `num_physical_counters`; otherwise the
operation fails with the group-count capacity error. -/
def append_to_any_hardware_counter (cfg : SchedulingConfig)
    (groups : List HardwareEventGroup) (event_config : CounterConfig) :
    Except CapacityError (List HardwareEventGroup) :=
  match place_in_open_group cfg.num_events_per_physical_counter event_config groups with
  | some groups2 => .ok groups2
  | none =>
    if groups.length < cfg.num_physical_counters then
      .ok (groups ++ [{ events := [event_config],
                        is_open := decide (1 < cfg.num_events_per_physical_counter) }])
    else
      .error (.maxGroupsReached cfg.num_physical_counters)

/-- Modelled from the spec: Append-scheduling a list of events, one after
the other; the first capacity failure aborts the whole operation. -/
def schedule_append (cfg : SchedulingConfig) (groups : List HardwareEventGroup) :
    List CounterConfig → Except CapacityError (List HardwareEventGroup)
  | [] => .ok groups
  | e :: es =>
    match append_to_any_hardware_counter cfg groups e with
    | .ok groups2 => schedule_append cfg groups2 es
    | .error err => .error err

/-- Modelled from the spec: Separate-scheduling opens a new, immediately
sealed single-member group per event, failing with the group-count capacity
error when the configured number of physical counters is exhausted. -/
def schedule_separate (cfg : SchedulingConfig) (groups : List HardwareEventGroup) :
    List CounterConfig → Except CapacityError (List HardwareEventGroup)
  | [] => .ok groups
  | e :: es =>
    if groups.length < cfg.num_physical_counters then
      schedule_separate cfg (groups ++ [{ events := [e], is_open := false }]) es
    else
      .error (.maxGroupsReached cfg.num_physical_counters)

/-- Modelled from the spec: Group-scheduling lands all events of the call in
one freshly created group, sealed on creation; exceeding the per-group
event limit is a capacity error naming that limit, and exhausting the group
count is a capacity error naming the group ceiling. -/
def schedule_group (cfg : SchedulingConfig) (groups : List HardwareEventGroup)
    (events : List CounterConfig) : Except CapacityError (List HardwareEventGroup) :=
  if events.length > cfg.num_events_per_physical_counter then
    .error (.cannotAddEventToSingleGroup cfg.num_events_per_physical_counter)
  else if groups.length < cfg.num_physical_counters then
    .ok (groups ++ [{ events := events, is_open := false }])
  else
    .error (.maxGroupsReached cfg.num_physical_counters)

/-- Modelled from the spec: `EventCounter::schedule` dispatches on the
requested scheduling policy. -/
def schedule (cfg : SchedulingConfig) (groups : List HardwareEventGroup)
    (events : List CounterConfig) : Schedule → Except CapacityError (List HardwareEventGroup)
  | .Append => schedule_append cfg groups events
  | .Separate => schedule_separate cfg groups events
  | .Group => schedule_group cfg groups events

/-- The `EventCounter` of `event_counter.h`, reduced to the state the
scheduling claims need: the scheduling ceilings, the insertion-ordered
requested event set (event names), and the hardware event groups. -/
structure EventCounter where
  config : SchedulingConfig
  requested_event_set : List String
  hardware_event_groups : List HardwareEventGroup
deriving DecidableEq, Repr

/-- Insertion-ordered, de-duplicating extension of the requested event set,
following `RequestedEventSet::add` in `requested_event.h`. -/
def add_requested_names : List String → List String → List String
  | set, [] => set
  | set, n :: ns => add_requested_names (if set.contains n then set else set ++ [n]) ns

/-- Modelled from the spec: the user-facing `EventCounter::add`. The named
events are scheduled onto the hardware event groups; on success the names
enter the requested event set, and a capacity failure retains no partial
mutation (all-or-nothing). -/
def EventCounter.add (ec : EventCounter) (events : List (String × CounterConfig))
    (request : Schedule) : Except CapacityError EventCounter :=
  match schedule ec.config ec.hardware_event_groups (events.map Prod.snd) request with
  | .error e => .error e
  | .ok groups2 =>
    .ok { ec with
          hardware_event_groups := groups2,
          requested_event_set :=
            add_requested_names ec.requested_event_set (events.map Prod.fst) }

/-- The `EventCounter` state retained by the caller after `add`: the updated
state on success and the untouched state on failure. -/
def EventCounter.addRun (ec : EventCounter) (events : List (String × CounterConfig))
    (request : Schedule) : EventCounter :=
  match ec.add events request with
  | .ok ec2 => ec2
  | .error _ => ec

/-- The capacity invariant of the scheduler state: no more groups than
configured physical counters and no group with more events than the
per-counter limit. -/
def groups_within (cfg : SchedulingConfig) (groups : List HardwareEventGroup) : Prop :=
  groups.length ≤ cfg.num_physical_counters
  ∧ ∀ g ∈ groups, g.events.length ≤ cfg.num_events_per_physical_counter

/-- The errno value EINVAL, the invalid-argument error code of the kernel
open call. -/
def EINVAL : ℤ := 22

/-- Modelled from the spec and the contract stated on
`Counter::is_precision_adjustable` in `counter.h` (its out-of-line body is
not part of the repository): lowering the precision can help only when the
current precision is positive and the error code reports an invalid
argument. -/
def is_precision_adjustable (current_precise_ip : ℕ) (error_code : ℤ) : Bool :=
  decide (0 < current_precise_ip) && error_code == EINVAL

/-- Modelled from the spec: the retry loop of the precision overload of
`Counter::try_open_via_perf_subsystem` (its out-of-line body is not part of
the repository). After a failed first attempt with `original_error`, while
the precision is adjustable the open call is retried at the next lower
precision; when the retries are exhausted or the failure is not
precision-adjustable, the call fails with the original error code. The
kernel open call is abstracted by `kernel`, mapping a precision to a file
descriptor or an error code. -/
def retry_with_lower_precision (kernel : ℕ → Except ℤ ℕ) (original_error : ℤ) :
    ℕ → ℤ → Except ℤ ℕ
  | 0, _ => .error original_error
  | p + 1, last_error =>
    if is_precision_adjustable (p + 1) last_error then
      match kernel p with
      | .ok fd => .ok fd
      | .error e2 => retry_with_lower_precision kernel original_error p e2
    else
      .error original_error

/-- Modelled from the spec: the precision overload of
`Counter::try_open_via_perf_subsystem` performs the kernel open call at the
requested precision and, on failure, enters the precision-lowering retry
loop carrying the original error code. -/
def try_open_via_perf_subsystem (kernel : ℕ → Except ℤ ℕ) (precision : ℕ) :
    Except ℤ ℕ :=
  match kernel precision with
  | .ok fd => .ok fd
  | .error e0 => retry_with_lower_precision kernel e0 precision e0

/-- A kernel-open oracle on which every attempt fails: precision 0 reports
error 5 and every higher precision reports EINVAL. -/
def failing_kernel (precision : ℕ) : Except ℤ ℕ :=
  if precision = 0 then .error 5 else .error EINVAL

/-- A kernel-open oracle on which the first attempt at precision 3 fails
with EINVAL and the retry at precision 2 succeeds with descriptor 9. -/
def eventually_open_kernel (precision : ℕ) : Except ℤ ℕ :=
  if precision < 3 then .ok 9 else .error EINVAL

/-- A decoded `Sample` from `sample.h`, reduced to the data the ordering
claim needs: the optional timestamp of its `Metadata` plus an identifying
payload. -/
structure Sample where
  timestamp : Option ℕ
  payload : ℕ
deriving DecidableEq, Repr

/-- The timestamp comparator used when sorting samples: samples without a
timestamp order after every sample with one, and two samples without a
timestamp compare as equivalent. -/
def sample_time_le (a b : Sample) : Bool :=
  match a.timestamp, b.timestamp with
  | some ta, some tb => decide (ta ≤ tb)
  | some _, none => true
  | none, none => true
  | none, some _ => false

/-- Modelled from the spec: the ordering step of `Sampler::result` (its
out-of-line body is not part of the repository). Given the concatenated
decoded samples in arrival order, `sort_by_time = true` stable-sorts them
by timestamp metadata and `sort_by_time = false` returns them unchanged. -/
def sampler_result (samples : List Sample) (sort_by_time : Bool) : List Sample :=
  if sort_by_time then samples.mergeSort sample_time_le else samples

/-- The hardware event named cycles, `PERF_COUNT_HW_CPU_CYCLES`. -/
def cycles : CounterConfig := { type := 0, config := 0 }

/-- The hardware event named instructions, `PERF_COUNT_HW_INSTRUCTIONS`. -/
def instructions : CounterConfig := { type := 0, config := 1 }

/-- The hardware event named cache-misses, `PERF_COUNT_HW_CACHE_MISSES`. -/
def cache_misses : CounterConfig := { type := 0, config := 3 }

/-- Failures of `Sampler::start`, mirroring `CannotStartEmptySamplerError`
and `CannotOpenCounterError` in `exception.h`. -/
inductive SamplerError where
  | cannotStartEmptySampler
  | cannotOpenCounter (error_code : ℤ)
deriving DecidableEq, Repr

/-- A `Sampler` from `sampler.h`, reduced to the lifecycle state the start
claims need: the configured trigger groups (event names), the `_is_opened`
flag, and the opened sample counters (abstracted to identifiers). -/
structure Sampler where
  triggers : List (List String)
  is_opened : Bool
  sample_counter : List ℕ
deriving DecidableEq, Repr

/-- Modelled from the spec: the out-of-line body of `Sampler::start` is not
part of the repository. Per the spec, starting with zero triggers fails with
the empty-sampler error and leaves the sampler untouched; otherwise the
sampler opens one sample counter per trigger group (the kernel interaction
is abstracted by `openGroups`), and a failure while opening leaves the
sampler closed rather than half-started. Returns the outcome together with
the sampler state retained after the call. -/
def Sampler.start (s : Sampler)
    (openGroups : List (List String) → Except ℤ (List ℕ)) :
    Except SamplerError Unit × Sampler :=
  if s.triggers.isEmpty then
    (.error .cannotStartEmptySampler, s)
  else
    match openGroups s.triggers with
    | .ok counters => (.ok (), { s with is_opened := true, sample_counter := counters })
    | .error code =>
        (.error (.cannotOpenCounter code), { s with is_opened := false, sample_counter := [] })

end perf

namespace perf

/-- `U64` as a numeral, for linear arithmetic. -/
theorem U64_eq : U64 = 18446744073709551616 := by
  norm_num [U64]

/-- For inputs below `2^64`, unsigned 64-bit subtraction agrees with integer
subtraction reduced modulo `2^64`. -/
theorem u64sub_eq_int_emod (a b : ℕ) (ha : a < U64) (hb : b < U64) :
    u64sub a b = (((a : ℤ) - (b : ℤ)) % (U64 : ℤ)).toNat := by
  unfold u64sub
  simp only [U64_eq] at ha hb ⊢
  omega

/-- Claim C3 (amended): `Group::calculate_multiplexing_factor` returns 1 when
the running-time delta is 0; when the running-time delta is positive it
returns the quotient time_enabled / time_running, and that quotient is at
least 1 whenever the enabled time is at least the running time. -/
theorem calculate_multiplexing_factor_spec (time_enabled time_running : ℕ) :
    (time_running = 0 → calculate_multiplexing_factor time_enabled time_running = 1)
    ∧ (0 < time_running →
        calculate_multiplexing_factor time_enabled time_running
          = (time_enabled : ℚ) / (time_running : ℚ))
    ∧ (0 < time_running → time_running ≤ time_enabled →
        1 ≤ calculate_multiplexing_factor time_enabled time_running) := by
  refine ⟨fun h => by simp [calculate_multiplexing_factor, h], fun h => by
    simp [calculate_multiplexing_factor, h], fun h hle => ?_⟩
  have hpos : (0 : ℚ) < (time_running : ℚ) := by exact_mod_cast h
  have hle' : (time_running : ℚ) ≤ (time_enabled : ℚ) := by exact_mod_cast hle
  simp only [calculate_multiplexing_factor, if_pos h]
  rw [le_div_iff₀ hpos]
  simpa using hle'

/-- Witness for the amended claim C3 at the concrete input (6, 3). -/
theorem calculate_multiplexing_factor_spec_witness :
    calculate_multiplexing_factor 6 3 = (6 : ℚ) / 3
    ∧ 1 ≤ calculate_multiplexing_factor 6 3 :=
  ⟨(calculate_multiplexing_factor_spec 6 3).2.1 (by norm_num),
   (calculate_multiplexing_factor_spec 6 3).2.2 (by norm_num) (by norm_num)⟩

/-- Counterexample to claim C3 as stated: at (time_enabled, time_running)
= (1, 2) the running-time delta is positive, yet the factor is 1/2 < 1. -/
theorem calculate_multiplexing_factor_lt_one_counterexample :
    calculate_multiplexing_factor 1 2 = (1 : ℚ) / 2
    ∧ ¬ (1 ≤ calculate_multiplexing_factor 1 2) := by
  norm_num [calculate_multiplexing_factor]

/-- Claim C9: two `CounterConfig` values compare equal exactly when their PMU
type codes and their primary configuration words agree; the remaining
configuration words, the scale, the precision and the period-or-frequency do
not participate. -/
theorem counter_config_eq_iff (a b : CounterConfig) :
    counter_config_eq a b = true ↔ (a.type = b.type ∧ a.config = b.config) := by
  simp [counter_config_eq]

/-- Claim C10: the snapshot overload of the multiplexing-factor computation
equals the delta form applied to the differences of the enabled and running
times reduced modulo 2^64; in particular, when an end time is smaller than
its start time the delta wraps around instead of failing. -/
theorem calculate_multiplexing_factor_snapshot_spec
    (startValue endValue : CounterValues)
    (h1 : startValue.time_enabled < U64) (h2 : startValue.time_running < U64)
    (h3 : endValue.time_enabled < U64) (h4 : endValue.time_running < U64) :
    calculate_multiplexing_factor_snapshot startValue endValue
      = calculate_multiplexing_factor
          ((((endValue.time_enabled : ℤ) - (startValue.time_enabled : ℤ)) % (U64 : ℤ)).toNat)
          ((((endValue.time_running : ℤ) - (startValue.time_running : ℤ)) % (U64 : ℤ)).toNat)
    ∧ (endValue.time_enabled < startValue.time_enabled →
        u64sub endValue.time_enabled startValue.time_enabled
          = U64 - (startValue.time_enabled - endValue.time_enabled)) := by
  constructor
  · unfold calculate_multiplexing_factor_snapshot
    rw [u64sub_eq_int_emod _ _ h3 h1, u64sub_eq_int_emod _ _ h4 h2]
  · intro hlt
    unfold u64sub
    simp only [U64_eq] at h1 h3 ⊢
    omega

/-- Witness for claim C10 at a concrete wrapping input: the end snapshot
(3, 10) has a smaller enabled time than the start snapshot (5, 4). -/
theorem calculate_multiplexing_factor_snapshot_spec_witness :
    (5 : ℕ) < U64
    ∧ (calculate_multiplexing_factor_snapshot ⟨5, 4⟩ ⟨3, 10⟩
        = calculate_multiplexing_factor
            ((((3 : ℤ) - (5 : ℤ)) % (U64 : ℤ)).toNat)
            ((((10 : ℤ) - (4 : ℤ)) % (U64 : ℤ)).toNat)
      ∧ ((3 : ℕ) < 5 → u64sub 3 5 = U64 - (5 - 3))) :=
  ⟨by norm_num [U64_eq],
   calculate_multiplexing_factor_snapshot_spec ⟨5, 4⟩ ⟨3, 10⟩
     (by norm_num [U64_eq]) (by norm_num [U64_eq]) (by norm_num [U64_eq])
     (by norm_num [U64_eq])⟩

/-- Placing an Append event into an open group does not change the number of
groups. -/
theorem place_in_open_group_length (cap : ℕ) (event_config : CounterConfig) :
    ∀ groups groups2, place_in_open_group cap event_config groups = some groups2 →
      groups2.length = groups.length := by
  intro groups
  induction groups with
  | nil => intro groups2 h; simp [place_in_open_group] at h
  | cons g gs ih =>
    intro groups2 h
    unfold place_in_open_group at h
    by_cases hc : (g.is_open && decide (g.events.length < cap)) = true
    · rw [if_pos hc] at h
      cases h
      simp
    · rw [if_neg hc] at h
      cases hp : place_in_open_group cap event_config gs with
      | none => rw [hp] at h; cases h
      | some gs2 =>
        rw [hp] at h
        cases h
        simpa using ih gs2 hp

/-- Placing an Append event into an open group keeps every group at or
below the per-counter event limit. -/
theorem place_in_open_group_sizes (cap : ℕ) (event_config : CounterConfig) :
    ∀ groups groups2, (∀ g ∈ groups, g.events.length ≤ cap) →
      place_in_open_group cap event_config groups = some groups2 →
      ∀ g ∈ groups2, g.events.length ≤ cap := by
  intro groups
  induction groups with
  | nil => intro groups2 _ h; simp [place_in_open_group] at h
  | cons g gs ih =>
    intro groups2 hall h
    unfold place_in_open_group at h
    by_cases hc : (g.is_open && decide (g.events.length < cap)) = true
    · rw [if_pos hc] at h
      cases h
      intro g2 hg2
      rcases List.mem_cons.mp hg2 with hg2 | hg2
      · subst hg2
        have hlt : g.events.length < cap := by
          simpa using (Bool.and_elim_right hc)
        simp
        omega
      · exact hall g2 (List.mem_cons_of_mem _ hg2)
    · rw [if_neg hc] at h
      cases hp : place_in_open_group cap event_config gs with
      | none => rw [hp] at h; cases h
      | some gs2 =>
        rw [hp] at h
        cases h
        intro g2 hg2
        rcases List.mem_cons.mp hg2 with hg2 | hg2
        · subst hg2; exact hall _ (List.mem_cons_self _ _)
        · exact ih gs2 (fun g3 hg3 => hall g3 (List.mem_cons_of_mem _ hg3)) hp g2 hg2

/-- A failing Append placement always reports the group-count ceiling. -/
theorem append_to_any_hardware_counter_error (cfg : SchedulingConfig)
    (groups : List HardwareEventGroup) (event_config : CounterConfig) (err : CapacityError)
    (h : append_to_any_hardware_counter cfg groups event_config = .error err) :
    err = .maxGroupsReached cfg.num_physical_counters := by
  unfold append_to_any_hardware_counter at h
  cases hp : place_in_open_group cfg.num_events_per_physical_counter event_config groups with
  | some groups2 => rw [hp] at h; cases h
  | none =>
    rw [hp] at h
    by_cases hl : groups.length < cfg.num_physical_counters
    · rw [if_pos hl] at h; cases h
    · rw [if_neg hl] at h; cases h; rfl

/-- A successful Append placement preserves the capacity invariant. -/
theorem append_to_any_hardware_counter_within (cfg : SchedulingConfig)
    (groups : List HardwareEventGroup) (event_config : CounterConfig)
    (hcap : 1 ≤ cfg.num_events_per_physical_counter)
    (hw : groups_within cfg groups) :
    ∀ groups2, append_to_any_hardware_counter cfg groups event_config = .ok groups2 →
      groups_within cfg groups2 := by
  intro groups2 h
  unfold append_to_any_hardware_counter at h
  cases hp : place_in_open_group cfg.num_events_per_physical_counter event_config groups with
  | some groups3 =>
    rw [hp] at h
    cases h
    exact ⟨by rw [place_in_open_group_length _ _ _ _ hp]; exact hw.1,
           place_in_open_group_sizes _ _ _ _ hw.2 hp⟩
  | none =>
    rw [hp] at h
    by_cases hl : groups.length < cfg.num_physical_counters
    · rw [if_pos hl] at h
      cases h
      constructor
      · simp
        omega
      · intro g hg
        rcases List.mem_append.mp hg with hg | hg
        · exact hw.2 g hg
        · simp at hg
          subst hg
          simpa using hcap
    · rw [if_neg hl] at h; cases h

/-- Every failure of Append scheduling reports the group-count ceiling. -/
theorem schedule_append_error (cfg : SchedulingConfig) :
    ∀ events groups err, schedule_append cfg groups events = .error err →
      err = .maxGroupsReached cfg.num_physical_counters := by
  intro events
  induction events with
  | nil => intro groups err h; cases h
  | cons e es ih =>
    intro groups err h
    unfold schedule_append at h
    cases ha : append_to_any_hardware_counter cfg groups e with
    | ok groups2 => rw [ha] at h; exact ih groups2 err h
    | error e2 =>
      rw [ha] at h
      cases h
      exact append_to_any_hardware_counter_error cfg groups e _ ha

/-- Successful Append scheduling preserves the capacity invariant. -/
theorem schedule_append_within (cfg : SchedulingConfig)
    (hcap : 1 ≤ cfg.num_events_per_physical_counter) :
    ∀ events groups groups2, groups_within cfg groups →
      schedule_append cfg groups events = .ok groups2 →
      groups_within cfg groups2 := by
  intro events
  induction events with
  | nil => intro groups groups2 hw h; cases h; exact hw
  | cons e es ih =>
    intro groups groups2 hw h
    unfold schedule_append at h
    cases ha : append_to_any_hardware_counter cfg groups e with
    | ok groups3 =>
      rw [ha] at h
      exact ih groups3 groups2 (append_to_any_hardware_counter_within cfg groups e hcap hw groups3 ha) h
    | error e2 => rw [ha] at h; cases h

/-- Every failure of Separate scheduling reports the group-count ceiling. -/
theorem schedule_separate_error (cfg : SchedulingConfig) :
    ∀ events groups err, schedule_separate cfg groups events = .error err →
      err = .maxGroupsReached cfg.num_physical_counters := by
  intro events
  induction events with
  | nil => intro groups err h; cases h
  | cons e es ih =>
    intro groups err h
    unfold schedule_separate at h
    by_cases hl : groups.length < cfg.num_physical_counters
    · rw [if_pos hl] at h
      exact ih _ err h
    · rw [if_neg hl] at h; cases h; rfl

/-- Successful Separate scheduling preserves the capacity invariant. -/
theorem schedule_separate_within (cfg : SchedulingConfig)
    (hcap : 1 ≤ cfg.num_events_per_physical_counter) :
    ∀ events groups groups2, groups_within cfg groups →
      schedule_separate cfg groups events = .ok groups2 →
      groups_within cfg groups2 := by
  intro events
  induction events with
  | nil => intro groups groups2 hw h; cases h; exact hw
  | cons e es ih =>
    intro groups groups2 hw h
    unfold schedule_separate at h
    by_cases hl : groups.length < cfg.num_physical_counters
    · rw [if_pos hl] at h
      refine ih _ groups2 ⟨by simp; omega, ?_⟩ h
      intro g hg
      rcases List.mem_append.mp hg with hg | hg
      · exact hw.2 g hg
      · simp at hg
        subst hg
        simpa using hcap
    · rw [if_neg hl] at h; cases h

/-- Every scheduling failure reports one of the two configured ceilings. -/
theorem schedule_error_shape (cfg : SchedulingConfig) (groups : List HardwareEventGroup)
    (events : List CounterConfig) (request : Schedule) (err : CapacityError)
    (h : schedule cfg groups events request = .error err) :
    err = .maxGroupsReached cfg.num_physical_counters
    ∨ err = .cannotAddEventToSingleGroup cfg.num_events_per_physical_counter := by
  cases request with
  | Append => exact Or.inl (schedule_append_error cfg events groups err h)
  | Separate => exact Or.inl (schedule_separate_error cfg events groups err h)
  | Group =>
    unfold schedule schedule_group at h
    by_cases hev : events.length > cfg.num_events_per_physical_counter
    · rw [if_pos hev] at h; cases h; exact Or.inr rfl
    · rw [if_neg hev] at h
      by_cases hl : groups.length < cfg.num_physical_counters
      · rw [if_pos hl] at h; cases h
      · rw [if_neg hl] at h; cases h; exact Or.inl rfl

/-- Successful scheduling preserves the capacity invariant under any
policy. -/
theorem schedule_within (cfg : SchedulingConfig) (groups : List HardwareEventGroup)
    (events : List CounterConfig) (request : Schedule)
    (hcap : 1 ≤ cfg.num_events_per_physical_counter)
    (hw : groups_within cfg groups) :
    ∀ groups2, schedule cfg groups events request = .ok groups2 →
      groups_within cfg groups2 := by
  intro groups2 h
  cases request with
  | Append => exact schedule_append_within cfg hcap events groups groups2 hw h
  | Separate => exact schedule_separate_within cfg hcap events groups groups2 hw h
  | Group =>
    unfold schedule schedule_group at h
    by_cases hev : events.length > cfg.num_events_per_physical_counter
    · rw [if_pos hev] at h; cases h
    · rw [if_neg hev] at h
      by_cases hl : groups.length < cfg.num_physical_counters
      · rw [if_pos hl] at h
        cases h
        constructor
        · simp
          omega
        · intro g hg
          rcases List.mem_append.mp hg with hg | hg
          · exact hw.2 g hg
          · simp at hg
            subst hg
            simpa using Nat.le_of_not_lt (by simpa using hev)
      · rw [if_neg hl] at h; cases h

/-- Claim C1: a capacity failure of `EventCounter::add` always carries one
of the two configured ceilings (the physical-counter count or the events
per physical counter), and the caller retains the `EventCounter` exactly as
it was, requested event set and hardware event groups included; moreover a
successful call never exceeds either ceiling. -/
theorem event_counter_add_capacity (ec : EventCounter)
    (events : List (String × CounterConfig)) (request : Schedule) :
    (∀ err, ec.add events request = .error err →
        (err = .maxGroupsReached ec.config.num_physical_counters
          ∨ err = .cannotAddEventToSingleGroup ec.config.num_events_per_physical_counter)
        ∧ ec.addRun events request = ec)
    ∧ (1 ≤ ec.config.num_events_per_physical_counter →
        groups_within ec.config ec.hardware_event_groups →
        ∀ ec2, ec.add events request = .ok ec2 →
          groups_within ec2.config ec2.hardware_event_groups) := by
  constructor
  · intro err herr
    refine ⟨?_, ?_⟩
    · unfold EventCounter.add at herr
      cases hs : schedule ec.config ec.hardware_event_groups (events.map Prod.snd) request with
      | ok groups2 => rw [hs] at herr; cases herr
      | error e2 =>
        rw [hs] at herr
        cases herr
        exact schedule_error_shape ec.config ec.hardware_event_groups
          (events.map Prod.snd) request _ hs
    · unfold EventCounter.addRun
      rw [herr]
  · intro hcap hw ec2 hok
    unfold EventCounter.add at hok
    cases hs : schedule ec.config ec.hardware_event_groups (events.map Prod.snd) request with
    | error e2 => rw [hs] at hok; cases hok
    | ok groups2 =>
      rw [hs] at hok
      cases hok
      exact schedule_within ec.config ec.hardware_event_groups
        (events.map Prod.snd) request hcap hw groups2 hs

/-- Witness for claim C1: the failing branch at a full one-counter
configuration and the succeeding branch at a two-counter configuration. -/
theorem event_counter_add_capacity_witness :
    ((CapacityError.maxGroupsReached 1 = CapacityError.maxGroupsReached 1
        ∨ CapacityError.maxGroupsReached 1 = CapacityError.cannotAddEventToSingleGroup 2)
      ∧ EventCounter.addRun ⟨⟨1, 2⟩, ["cycles"], [⟨[cycles, instructions], false⟩]⟩
          [("cache-misses", cache_misses)] .Append
          = ⟨⟨1, 2⟩, ["cycles"], [⟨[cycles, instructions], false⟩]⟩)
    ∧ groups_within ⟨2, 2⟩ [⟨[cycles, instructions], false⟩, ⟨[cache_misses], true⟩] :=
  ⟨(event_counter_add_capacity ⟨⟨1, 2⟩, ["cycles"], [⟨[cycles, instructions], false⟩]⟩
      [("cache-misses", cache_misses)] .Append).1 (.maxGroupsReached 1) rfl,
   (event_counter_add_capacity ⟨⟨2, 2⟩, [], []⟩
      [("cycles", cycles), ("instructions", instructions), ("cache-misses", cache_misses)]
      .Append).2 (by decide) (by simp [groups_within])
      ⟨⟨2, 2⟩, ["cycles", "instructions", "cache-misses"],
        [⟨[cycles, instructions], false⟩, ⟨[cache_misses], true⟩]⟩ rfl⟩

/-- Counterexample to claim C2 as stated: with num_physical_counters = 1 and
num_events_per_physical_counter = 2, Append-scheduling the three events
cycles, instructions and cache-misses does not succeed with two groups — it
fails with the group-count capacity error, because the third event would
need a second group and only one physical counter is configured. -/
theorem append_scenario_counterexample :
    EventCounter.add ⟨⟨1, 2⟩, [], []⟩
        [("cycles", cycles), ("instructions", instructions), ("cache-misses", cache_misses)]
        .Append
      = .error (.maxGroupsReached 1) := rfl

/-- Claim C2 (amended): on a configuration whose group-count limit admits a
second group (num_physical_counters = 2, num_events_per_physical_counter
= 2), Append-scheduling cycles, instructions and cache-misses succeeds and
produces exactly two groups, the first holding two events (now sealed) and
the second holding one (still open), following the Append rule. -/
theorem append_scenario_two_groups :
    EventCounter.add ⟨⟨2, 2⟩, [], []⟩
        [("cycles", cycles), ("instructions", instructions), ("cache-misses", cache_misses)]
        .Append
      = .ok ⟨⟨2, 2⟩, ["cycles", "instructions", "cache-misses"],
             [⟨[cycles, instructions], false⟩, ⟨[cache_misses], true⟩]⟩
    ∧ ([⟨[cycles, instructions], false⟩, ⟨[cache_misses], true⟩]
        : List HardwareEventGroup).map (fun g => g.events.length) = [2, 1] :=
  ⟨rfl, rfl⟩

/-- Claim C8: a successful `Group::add` never produces more than
`MAX_MEMBERS = 12` members, and adding to a group that already holds 12
members fails with the capacity error and leaves the member list
unchanged. -/
theorem group_add_capacity (g : Group) (event_config : CounterConfig) :
    (∀ g2, g.add event_config = .ok g2 → g2.members.length ≤ MAX_MEMBERS)
    ∧ (MAX_MEMBERS ≤ g.members.length →
        g.add event_config = .error .maxMembersReached
        ∧ g.addRun event_config = g) := by
  constructor
  · intro g2 h
    unfold Group.add at h
    by_cases hlen : g.members.length ≥ MAX_MEMBERS
    · simp [hlen] at h
    · simp [hlen] at h
      subst h
      simp
      omega
  · intro hlen
    have h : g.add event_config = .error .maxMembersReached := by
      unfold Group.add
      simp [hlen]
    exact ⟨h, by unfold Group.addRun; rw [h]⟩

/-- Witness for claim C8 at a concrete full group of 12 members. -/
theorem group_add_capacity_witness :
    MAX_MEMBERS ≤ (Group.mk (List.replicate 12 { type := 0, config := 0 })).members.length
    ∧ (Group.mk (List.replicate 12 { type := 0, config := 0 })).add { type := 0, config := 1 }
        = .error .maxMembersReached
    ∧ (Group.mk (List.replicate 12 { type := 0, config := 0 })).addRun { type := 0, config := 1 }
        = Group.mk (List.replicate 12 { type := 0, config := 0 }) :=
  ⟨by simp [MAX_MEMBERS],
   (group_add_capacity (Group.mk (List.replicate 12 { type := 0, config := 0 }))
      { type := 0, config := 1 }).2 (by simp [MAX_MEMBERS])⟩

/-- Counterexample to claim C4 as stated: for a sampler whose single counter
buffer holds one chunk, the second call to `consume_sample_data` returns the
cached chunk again, not an empty result. -/
theorem consume_sample_data_second_call_counterexample :
    (SamplerBuffers.consume_sample_data
        (SamplerBuffers.consume_sample_data ⟨[⟨[[1]]⟩], [], false⟩).2).1 = [[[1]]]
    ∧ [[[1]]] ≠ ([] : List (List (List ℕ))) := by
  constructor
  · rfl
  · simp

/-- Claim C4 (amended): a second `MmapBuffer::consume_data` with no
intervening overflow returns an empty result; `Sampler::consume_sample_data`
consumes the counter buffers only once — the first call drains every buffer,
and a second call returns the same already-consumed data, changing
nothing, rather than an empty result. -/
theorem consume_data_consumes_once (b : MmapBuffer) (s : SamplerBuffers)
    (h : s.is_consumed = false) :
    ((b.consume_data.2).consume_data).1 = []
    ∧ (s.consume_sample_data.2).consume_sample_data
        = (s.consume_sample_data.1, s.consume_sample_data.2)
    ∧ ∀ c ∈ s.consume_sample_data.2.counters, c.overflow_data = [] := by
  refine ⟨rfl, ?_, ?_⟩
  · simp [SamplerBuffers.consume_sample_data, h]
  · simp [SamplerBuffers.consume_sample_data, h]

/-- Witness for the amended claim C4 at a concrete one-chunk buffer state. -/
theorem consume_data_consumes_once_witness :
    (false = false)
    ∧ (((MmapBuffer.mk [[7]]).consume_data.2).consume_data).1 = []
    ∧ (SamplerBuffers.consume_sample_data
          (SamplerBuffers.consume_sample_data ⟨[⟨[[7]]⟩], [], false⟩).2
        = ((SamplerBuffers.consume_sample_data ⟨[⟨[[7]]⟩], [], false⟩).1,
           (SamplerBuffers.consume_sample_data ⟨[⟨[[7]]⟩], [], false⟩).2))
    ∧ ∀ c ∈ (SamplerBuffers.consume_sample_data ⟨[⟨[[7]]⟩], [], false⟩).2.counters,
        c.overflow_data = [] :=
  ⟨rfl, consume_data_consumes_once (MmapBuffer.mk [[7]]) ⟨[⟨[[7]]⟩], [], false⟩ rfl⟩

/-- Claim C6: starting a sampler with zero configured triggers fails with the
empty-sampler error and changes nothing; more generally, any failing
`Sampler::start` on a sampler that is not opened leaves it closed (no
opened sample counters are retained). -/
theorem sampler_start_spec (s : Sampler)
    (openGroups : List (List String) → Except ℤ (List ℕ)) :
    (s.triggers = [] →
        s.start openGroups = (.error .cannotStartEmptySampler, s))
    ∧ (s.is_opened = false → s.sample_counter = [] →
        ∀ e, (s.start openGroups).1 = .error e →
          (s.start openGroups).2.is_opened = false
          ∧ (s.start openGroups).2.sample_counter = []) := by
  constructor
  · intro h
    simp [Sampler.start, h]
  · intro hopen hcnt e herr
    unfold Sampler.start at herr ⊢
    by_cases ht : s.triggers.isEmpty
    · simp [ht, hopen, hcnt]
    · simp only [ht, if_false] at herr ⊢
      cases hog : openGroups s.triggers with
      | ok counters => rw [hog] at herr; simp at herr
      | error code => simp

/-- Every failure of the precision-lowering retry loop carries the original
error code of the first failing attempt. -/
theorem retry_with_lower_precision_error_code (kernel : ℕ → Except ℤ ℕ)
    (original_error : ℤ) :
    ∀ p last_error err,
      retry_with_lower_precision kernel original_error p last_error = .error err →
      err = original_error := by
  intro p
  induction p with
  | zero => intro lastE err h; cases h; rfl
  | succ p ih =>
    intro lastE err h
    unfold retry_with_lower_precision at h
    by_cases hc : is_precision_adjustable (p + 1) lastE = true
    · rw [if_pos hc] at h
      cases hk : kernel p with
      | ok fd => rw [hk] at h; cases h
      | error e2 => rw [hk] at h; exact ih e2 err h
    · rw [if_neg hc] at h; cases h; rfl

/-- A success of the precision-lowering retry loop comes from an actual
kernel open attempt at a strictly lower precision. -/
theorem retry_with_lower_precision_ok (kernel : ℕ → Except ℤ ℕ)
    (original_error : ℤ) :
    ∀ p last_error fd,
      retry_with_lower_precision kernel original_error p last_error = .ok fd →
      ∃ q, q < p ∧ kernel q = .ok fd := by
  intro p
  induction p with
  | zero => intro lastE fd h; cases h
  | succ p ih =>
    intro lastE fd h
    unfold retry_with_lower_precision at h
    by_cases hc : is_precision_adjustable (p + 1) lastE = true
    · rw [if_pos hc] at h
      cases hk : kernel p with
      | ok fd2 =>
        rw [hk] at h
        cases h
        exact ⟨p, Nat.lt_succ_self p, hk⟩
      | error e2 =>
        rw [hk] at h
        obtain ⟨q, hq, hkq⟩ := ih e2 fd h
        exact ⟨q, Nat.lt_succ_of_lt hq, hkq⟩
    · rw [if_neg hc] at h; cases h

/-- A failing sampling open carries the error code of the very first
attempt. -/
theorem try_open_error_code_is_first (kernel : ℕ → Except ℤ ℕ) (precision : ℕ)
    (err : ℤ) (h : try_open_via_perf_subsystem kernel precision = .error err) :
    kernel precision = .error err := by
  unfold try_open_via_perf_subsystem at h
  cases hk : kernel precision with
  | ok fd => rw [hk] at h; cases h
  | error e0 =>
    rw [hk] at h
    rw [retry_with_lower_precision_error_code kernel e0 precision e0 err h]

/-- A successful sampling open comes from a kernel attempt at the requested
precision or some lower one. -/
theorem try_open_ok_from_attempt (kernel : ℕ → Except ℤ ℕ) (precision : ℕ)
    (fd : ℕ) (h : try_open_via_perf_subsystem kernel precision = .ok fd) :
    ∃ q, q ≤ precision ∧ kernel q = .ok fd := by
  unfold try_open_via_perf_subsystem at h
  cases hk : kernel precision with
  | ok fd2 =>
    rw [hk] at h
    cases h
    exact ⟨precision, Nat.le_refl precision, hk⟩
  | error e0 =>
    rw [hk] at h
    obtain ⟨q, hq, hkq⟩ := retry_with_lower_precision_ok kernel e0 precision e0 fd h
    exact ⟨q, Nat.le_of_lt hq, hkq⟩

/-- Claim C5: the sampling open retries the kernel call at successively
lower precision; a success always comes from one of those attempts, and
when every attempt at the requested precision or lower fails, the call
fails carrying the error code of the original (first) failing attempt. -/
theorem try_open_precision_fallback (kernel : ℕ → Except ℤ ℕ) (precision : ℕ) :
    (∀ err, try_open_via_perf_subsystem kernel precision = .error err →
        kernel precision = .error err)
    ∧ (∀ fd, try_open_via_perf_subsystem kernel precision = .ok fd →
        ∃ q, q ≤ precision ∧ kernel q = .ok fd)
    ∧ ((∀ q, q ≤ precision → ∃ e2, kernel q = .error e2) →
        ∃ e0, kernel precision = .error e0
          ∧ try_open_via_perf_subsystem kernel precision = .error e0) := by
  refine ⟨fun err h => try_open_error_code_is_first kernel precision err h,
          fun fd h => try_open_ok_from_attempt kernel precision fd h, ?_⟩
  intro hall
  cases hres : try_open_via_perf_subsystem kernel precision with
  | ok fd =>
    exfalso
    obtain ⟨q, hq, hkq⟩ := try_open_ok_from_attempt kernel precision fd hres
    obtain ⟨e2, he2⟩ := hall q hq
    rw [hkq] at he2
    cases he2
  | error err =>
    exact ⟨err, try_open_error_code_is_first kernel precision err hres, rfl⟩

/-- Witness for claim C5: on the all-failing kernel oracle the open fails
with the original EINVAL of the first attempt, and on the eventually
succeeding oracle the returned descriptor comes from an attempt at a lower
precision. -/
theorem try_open_precision_fallback_witness :
    failing_kernel 3 = .error EINVAL
    ∧ (∃ e0, failing_kernel 3 = .error e0
        ∧ try_open_via_perf_subsystem failing_kernel 3 = .error e0)
    ∧ (∃ q, q ≤ 3 ∧ eventually_open_kernel q = .ok 9) :=
  ⟨(try_open_precision_fallback failing_kernel 3).1 EINVAL rfl,
   (try_open_precision_fallback failing_kernel 3).2.2
     (by intro q hq; interval_cases q <;> exact ⟨_, rfl⟩),
   (try_open_precision_fallback eventually_open_kernel 3).2.1 9 rfl⟩

/-- The timestamp comparator is transitive. -/
theorem sample_time_le_trans : ∀ a b c : Sample,
    sample_time_le a b → sample_time_le b c → sample_time_le a c := by
  rintro ⟨ta, pa⟩ ⟨tb, pb⟩ ⟨tc, pc⟩ hab hbc
  cases ta <;> cases tb <;> cases tc <;> simp_all [sample_time_le]
  omega

/-- The timestamp comparator is total. -/
theorem sample_time_le_total : ∀ a b : Sample,
    sample_time_le a b || sample_time_le b a := by
  rintro ⟨ta, pa⟩ ⟨tb, pb⟩
  cases ta <;> cases tb <;> simp [sample_time_le]
  omega

/-- Claim C7: with sort_by_time = false the sampler result preserves arrival
order unchanged; with sort_by_time = true it is a permutation of the
arrival-ordered samples that is sorted by the timestamp comparator, every
sample without a timestamp is placed after all samples with one, and the
samples without a timestamp keep their arrival order among themselves. -/
theorem sampler_result_ordering (samples : List Sample) :
    sampler_result samples false = samples
    ∧ (sampler_result samples true).Perm samples
    ∧ (sampler_result samples true).Pairwise (fun a b => sample_time_le a b = true)
    ∧ (sampler_result samples true).Pairwise
        (fun a b => a.timestamp = none → b.timestamp = none)
    ∧ (sampler_result samples true).filter (fun smp => smp.timestamp.isNone)
        = samples.filter (fun smp => smp.timestamp.isNone) := by
  have hperm : (samples.mergeSort sample_time_le).Perm samples :=
    List.mergeSort_perm samples sample_time_le
  have hsorted : (samples.mergeSort sample_time_le).Pairwise
      (fun a b => sample_time_le a b = true) :=
    List.sorted_mergeSort sample_time_le_trans sample_time_le_total samples
  refine ⟨rfl, by simpa [sampler_result] using hperm,
          by simpa [sampler_result] using hsorted, ?_, ?_⟩
  · refine List.Pairwise.imp ?_ (by simpa [sampler_result] using hsorted)
    intro a b hle hna
    cases hb : b.timestamp with
    | none => rfl
    | some tb =>
      exfalso
      simp [sample_time_le, hna, hb] at hle
  · have hmem : ∀ x ∈ samples.filter (fun smp => smp.timestamp.isNone),
        x.timestamp = none := by
      intro x hx
      have := (List.mem_filter.mp hx).2
      simpa [Option.isNone_iff_eq_none] using this
    have hcpair : (samples.filter (fun smp => smp.timestamp.isNone)).Pairwise
        (fun a b => sample_time_le a b = true) := by
      apply List.pairwise_of_forall_mem_list
      intro a ha b hb
      simp [sample_time_le, hmem a ha, hmem b hb]
    have hstable : List.Sublist (samples.filter (fun smp => smp.timestamp.isNone))
        (samples.mergeSort sample_time_le) :=
      List.sublist_mergeSort sample_time_le_trans sample_time_le_total hcpair
        (List.filter_sublist samples)
    have hsubf : List.Sublist (samples.filter (fun smp => smp.timestamp.isNone))
        ((samples.mergeSort sample_time_le).filter (fun smp => smp.timestamp.isNone)) := by
      have h2 := hstable.filter (fun smp => smp.timestamp.isNone)
      rwa [List.filter_eq_self.mpr (fun a ha => by
        simpa [Option.isNone_iff_eq_none] using hmem a ha)] at h2
    have hlen : ((samples.mergeSort sample_time_le).filter
          (fun smp => smp.timestamp.isNone)).length
        = (samples.filter (fun smp => smp.timestamp.isNone)).length :=
      (hperm.filter (fun smp => smp.timestamp.isNone)).length_eq
    have hfe := hsubf.eq_of_length hlen.symm
    simpa [sampler_result] using hfe.symm

/-- Witness for claim C6 at the concrete zero-trigger sampler. -/
theorem sampler_start_spec_witness :
    (Sampler.start ⟨[], false, []⟩ (fun _ => .ok [])
        = (.error .cannotStartEmptySampler, ⟨[], false, []⟩))
    ∧ ((Sampler.start ⟨[], false, []⟩ (fun _ => .ok [])).2.is_opened = false
        ∧ (Sampler.start ⟨[], false, []⟩ (fun _ => .ok [])).2.sample_counter = []) :=
  ⟨(sampler_start_spec ⟨[], false, []⟩ (fun _ => .ok [])).1 rfl,
   (sampler_start_spec ⟨[], false, []⟩ (fun _ => .ok [])).2 rfl rfl
     .cannotStartEmptySampler rfl⟩

end perf
